import Mathlib

/-!
Verification of the essay versioning, diff-classification and
progressive-scoring subsystem.

The development shallowly embeds the TypeScript sources:
  - `EssayDiffSystem` (token diff, change classification),
  - `ProgressiveScoringSystem` (baseline score, boosts, heuristics, clamps),
  - `SmartSuggestionGenerator` (generation-mode dispatch),
  - suggestion filtering utilities.

Texts are modelled as `List Char`; JavaScript numbers are modelled as `ℚ`
(every constant occurring in the code, such as 0.5, is exactly representable
as a binary double, so rational arithmetic agrees with the JS evaluation on
all the operations used: addition, min, max, comparison).  A JS value that
may be `undefined` is modelled as an `Option`.
-/

namespace EssayAssist

/-- A token produced by `split(/(\s+)/)`: either a run of whitespace or a
(possibly empty) run of non-whitespace characters. -/
abbrev Token := List Char

/-- The character class matched by the JavaScript `\s` (the ASCII part plus
the common Unicode space code points). -/
def jsWhitespace (c : Char) : Bool :=
  c.val = 0x20 || c.val = 0x09 || c.val = 0x0a || c.val = 0x0d ||
  c.val = 0x0b || c.val = 0x0c || c.val = 0xa0 || c.val = 0x1680 ||
  (0x2000 <= c.val && c.val <= 0x200a) || c.val = 0x2028 || c.val = 0x2029 ||
  c.val = 0x202f || c.val = 0x205f || c.val = 0x3000 || c.val = 0xfeff

/-- Whitespace class of a token (class of its first character; the empty
token is treated as non-whitespace, which matches the boundary tokens the
JS split produces). -/
def tokIsWs : Token → Bool
  | [] => false
  | c :: _ => jsWhitespace c

/-- Group a string into its maximal runs of same-whitespace-class
characters. -/
def groupRuns : List Char → List Token
  | [] => []
  | c :: cs =>
    match groupRuns cs with
    | [] => [[c]]
    | t :: ts =>
      if jsWhitespace c = tokIsWs t then (c :: t) :: ts else [c] :: t :: ts

/-- Embedding of `text.split(/(\s+)/)`: the maximal runs, with an empty token added in
front when the text starts with whitespace, an empty token added at the end
when it ends with whitespace, and `[""]` for the empty string — exactly the
boundary behaviour of the JS split with a captured separator group. -/
def tokenize (s : List Char) : List Token :=
  match groupRuns s with
  | [] => [[]]
  | t :: ts =>
    (if tokIsWs t then [([] : Token)] else []) ++ (t :: ts) ++
    (if tokIsWs ((t :: ts).getLastD []) then [([] : Token)] else [])

/-- Concatenation of a token list back into a string. -/
def joinToks (ts : List Token) : List Char := ts.flatten

theorem joinToks_groupRuns (s : List Char) : joinToks (groupRuns s) = s := by
  induction s with
  | nil => rfl
  | cons c cs ih =>
    unfold groupRuns
    cases h : groupRuns cs with
    | nil =>
      rw [h] at ih
      simp only [joinToks, List.flatten_nil] at ih
      dsimp only
      simp [joinToks, ← ih]
    | cons t ts =>
      rw [h] at ih
      simp only [joinToks, List.flatten_cons] at ih
      dsimp only
      by_cases hc : jsWhitespace c = tokIsWs t
      · rw [if_pos hc]
        simp only [joinToks, List.flatten_cons, List.cons_append]
        rw [ih]
      · rw [if_neg hc]
        simp only [joinToks, List.flatten_cons, List.singleton_append]
        rw [ih]

theorem joinToks_append (a b : List Token) :
    joinToks (a ++ b) = joinToks a ++ joinToks b := by
  simp [joinToks]

theorem joinToks_tokenize (s : List Char) : joinToks (tokenize s) = s := by
  have hg := joinToks_groupRuns s
  unfold tokenize
  cases h : groupRuns s with
  | nil =>
    rw [h] at hg
    simp only [joinToks, List.flatten_nil] at hg
    simp [joinToks, ← hg]
  | cons t ts =>
    rw [h] at hg
    cases h1 : tokIsWs t <;>
      cases h2 : tokIsWs ((t :: ts).getLastD []) <;>
      simp only [h1, h2, if_true, if_false, Bool.false_eq_true, joinToks,
        List.flatten_append, List.flatten_cons, List.flatten_nil,
        List.nil_append, List.append_nil] at hg ⊢ <;>
      exact hg

/-- Essay region: the beginning/middle/end thirds.  (`ending` models the
source's `'end'`, which is a keyword in Lean.) -/
inductive Region where
  | beginning
  | middle
  | ending
  deriving DecidableEq

/-- Kind of a single text change. -/
inductive ChangeKind where
  | addition
  | deletion
  | modification
  deriving DecidableEq

/-- Classification of a whole version transition. -/
inductive ChangeType where
  | no_change
  | manual_edit
  | suggestion_applied
  | bulk_suggestion_applied
  deriving DecidableEq

/-- Embedding of `TextChange` from `essay-diff-system`. -/
structure TextChange where
  startIndex : Nat
  endIndex : Nat
  oldText : List Char
  newText : List Char
  changeType : ChangeKind
  region : Region
  deriving DecidableEq

/-- Embedding of `DiffResult` from `essay-diff-system`. -/
structure DiffResult where
  changes : List TextChange
  changeType : ChangeType
  appliedSuggestionIds : List String
  affectedRegions : List Region
  deriving DecidableEq

/-- Embedding of `getRegion(charIndex, totalLength)`: `charIndex / totalLength < 0.33` is
beginning, `< 0.67` middle, otherwise end.  The JS division is on doubles;
here the comparison is exact on rationals (`33/100`, `67/100`), which agrees
with the JS comparison away from one-ulp boundary artefacts.  For
`totalLength = 0` the JS ratio is `NaN` or `Infinity` and both comparisons
are false, giving `end`. -/
def getRegion (charIndex totalLength : Nat) : Region :=
  if totalLength = 0 then .ending
  else if 100 * charIndex < 33 * totalLength then .beginning
  else if 100 * charIndex < 67 * totalLength then .middle
  else .ending

/-- Lookahead window of `findTextChanges`. -/
def maxLookAhead : Nat := 10

/-- Inner `j`-loop of the resynchronization search: the first
`j ∈ [1, maxLookAhead]` with `newWords[newIndex + j]` present and equal to
the probed old token (`new` is the token suffix starting at `newIndex`). -/
def findMatchJ (t : Token) (new : List Token) : Option Nat :=
  (List.range' 1 maxLookAhead).find? fun j =>
    decide (j < new.length) && decide (new.getD j [] = t)

/-- Outer `i`-loop of the resynchronization search: the first pair `(i, j)`
(in lexicographic order, `i` major) with both tokens present in the window
and `oldWords[oldIndex + i] = newWords[newIndex + j]`. -/
def findResync (old new : List Token) : Option (Nat × Nat) :=
  (List.range' 1 maxLookAhead).findSome? fun i =>
    if i < old.length then (findMatchJ (old.getD i []) new).map (fun j => (i, j))
    else none

theorem findMatchJ_pos {t : Token} {new : List Token} {j : Nat}
    (h : findMatchJ t new = some j) : 1 ≤ j := by
  have hm := List.mem_of_find?_eq_some h
  have := List.mem_range'_1.mp hm
  omega

theorem findResync_pos {old new : List Token} {p : Nat × Nat}
    (h : findResync old new = some p) : 1 ≤ p.1 ∧ 1 ≤ p.2 := by
  obtain ⟨i, hi, hfi⟩ := List.exists_of_findSome?_eq_some h
  have hi1 := (List.mem_range'_1.mp hi).1
  by_cases hlt : i < old.length
  · rw [if_pos hlt] at hfi
    cases hj : findMatchJ (old.getD i []) new with
    | none => rw [hj] at hfi; simp at hfi
    | some j =>
      rw [hj] at hfi
      simp only [Option.map_some'] at hfi
      cases hfi
      exact ⟨hi1, findMatchJ_pos hj⟩
  · rw [if_neg hlt] at hfi
    simp at hfi

/-- Main loop of `findTextChanges`, operating on the token suffixes that
start at `oldIndex`/`newIndex`.  `fuel` bounds the number of iterations; the
top-level entry point supplies `old.length + new.length`, which suffices
because every iteration consumes at least one token overall. -/
def findTextChangesAux : Nat → List Token → List Token → Nat → Nat → List TextChange
  | 0, _, _, _, _ => []
  | _ + 1, [], [], _, _ => []
  | _ + 1, [], n :: ns, off, total =>
    [{ startIndex := off, endIndex := off, oldText := [],
       newText := joinToks (n :: ns), changeType := .addition,
       region := getRegion off total }]
  | _ + 1, o :: os, [], off, total =>
    [{ startIndex := off, endIndex := off + (joinToks (o :: os)).length,
       oldText := joinToks (o :: os), newText := [], changeType := .deletion,
       region := getRegion off total }]
  | fuel + 1, o :: os, n :: ns, off, total =>
    if o = n then
      findTextChangesAux fuel os ns (off + o.length) total
    else
      match findResync (o :: os) (n :: ns) with
      | some (i, j) =>
        { startIndex := off,
          endIndex := off + (joinToks ((o :: os).take i)).length,
          oldText := joinToks ((o :: os).take i),
          newText := joinToks ((n :: ns).take j),
          changeType := .modification, region := getRegion off total } ::
          findTextChangesAux fuel ((o :: os).drop i) ((n :: ns).drop j)
            (off + (joinToks ((n :: ns).take j)).length) total
      | none =>
        { startIndex := off, endIndex := off + o.length, oldText := o,
          newText := n, changeType := .modification,
          region := getRegion off total } ::
          findTextChangesAux fuel os ns (off + n.length) total

/-- Embedding of `EssayDiffSystem.findTextChanges`. -/
def findTextChanges (oldText newText : List Char) : List TextChange :=
  let oldWords := tokenize oldText
  let newWords := tokenize newText
  findTextChangesAux (oldWords.length + newWords.length) oldWords newWords 0
    oldText.length

/-- Embedding of `EssayDiffSystem.identifyAffectedRegions`: the distinct change regions in
first-occurrence order (a JS `Set` preserves insertion order). -/
def dedupFirst : List Region → List Region → List Region
  | _, [] => []
  | seen, r :: rs =>
    if r ∈ seen then dedupFirst seen rs else r :: dedupFirst (r :: seen) rs

def identifyAffectedRegions (oldContent newContent : List Char) : List Region :=
  dedupFirst [] ((findTextChanges oldContent newContent).map (·.region))

/-- Embedding of `EssayDiffSystem.computeDiff`. -/
def computeDiff (oldContent newContent : List Char)
    (appliedSuggestionIds : List String) : DiffResult :=
  if oldContent = newContent then
    { changes := [], changeType := .no_change, appliedSuggestionIds := [],
      affectedRegions := [] }
  else if appliedSuggestionIds.length > 0 then
    { changes := findTextChanges oldContent newContent,
      changeType := if appliedSuggestionIds.length > 3 then
        .bulk_suggestion_applied else .suggestion_applied,
      appliedSuggestionIds := appliedSuggestionIds,
      affectedRegions := identifyAffectedRegions oldContent newContent }
  else
    { changes := findTextChanges oldContent newContent,
      changeType := .manual_edit, appliedSuggestionIds := [],
      affectedRegions := identifyAffectedRegions oldContent newContent }

/-- Embedding of `String.prototype.trim()` (same whitespace class as `\s`). -/
def jsTrim (s : List Char) : List Char :=
  ((s.dropWhile jsWhitespace).reverse.dropWhile jsWhitespace).reverse

/-- Semantics of a change list: unchanged characters are kept, and each
change, in order, replaces its `oldText` span by its `newText` span.
`ApplyChanges cs old new` states that rewriting `old` this way produces
exactly `new`. -/
inductive ApplyChanges : List TextChange → List Char → List Char → Prop where
  | done : ApplyChanges [] [] []
  | keep (a : Char) {cs : List TextChange} {o n : List Char} :
      ApplyChanges cs o n → ApplyChanges cs (a :: o) (a :: n)
  | change (c : TextChange) {cs : List TextChange} {o n : List Char} :
      ApplyChanges cs o n →
      ApplyChanges (c :: cs) (c.oldText ++ o) (c.newText ++ n)

theorem ApplyChanges.keepMany (u : List Char) {cs : List TextChange}
    {o n : List Char} (h : ApplyChanges cs o n) :
    ApplyChanges cs (u ++ o) (u ++ n) := by
  induction u with
  | nil => simpa using h
  | cons a u ih => exact ApplyChanges.keep a ih

theorem joinToks_take_drop (l : List Token) (k : Nat) :
    joinToks l = joinToks (l.take k) ++ joinToks (l.drop k) := by
  rw [← joinToks_append, List.take_append_drop]

theorem applyChanges_findTextChangesAux (total : Nat) :
    ∀ fuel (old new : List Token) (off : Nat),
      old.length + new.length ≤ fuel →
      ApplyChanges (findTextChangesAux fuel old new off total)
        (joinToks old) (joinToks new) := by
  intro fuel
  induction fuel with
  | zero =>
    intro old new off h
    cases old with
    | cons o os => simp at h
    | nil =>
      cases new with
      | cons n ns => simp at h
      | nil => exact ApplyChanges.done
  | succ fuel ih =>
    intro old new off h
    cases old with
    | nil =>
      cases new with
      | nil => exact ApplyChanges.done
      | cons n ns =>
        have hc := ApplyChanges.change
          { startIndex := off, endIndex := off, oldText := [],
            newText := joinToks (n :: ns), changeType := .addition,
            region := getRegion off total } ApplyChanges.done
        simpa [findTextChangesAux] using hc
    | cons o os =>
      cases new with
      | nil =>
        have hc := ApplyChanges.change
          { startIndex := off, endIndex := off + (joinToks (o :: os)).length,
            oldText := joinToks (o :: os), newText := [],
            changeType := .deletion, region := getRegion off total }
          ApplyChanges.done
        simpa [findTextChangesAux] using hc
      | cons n ns =>
        simp only [List.length_cons] at h
        by_cases ho : o = n
        · subst ho
          simp only [findTextChangesAux, if_pos rfl]
          have hrec := ih os ns (off + o.length) (by omega)
          simpa [joinToks] using ApplyChanges.keepMany o hrec
        · cases hr : findResync (o :: os) (n :: ns) with
          | some p =>
            obtain ⟨i, j⟩ := p
            have hpos := findResync_pos hr
            simp only at hpos
            simp only [findTextChangesAux, if_neg ho, hr]
            have hrec := ih ((o :: os).drop i) ((n :: ns).drop j)
              (off + (joinToks ((n :: ns).take j)).length)
              (by simp only [List.length_drop, List.length_cons]; omega)
            have hc := ApplyChanges.change
              { startIndex := off,
                endIndex := off + (joinToks ((o :: os).take i)).length,
                oldText := joinToks ((o :: os).take i),
                newText := joinToks ((n :: ns).take j),
                changeType := .modification, region := getRegion off total }
              hrec
            rw [joinToks_take_drop (o :: os) i, joinToks_take_drop (n :: ns) j]
            exact hc
          | none =>
            simp only [findTextChangesAux, if_neg ho, hr]
            have hrec := ih os ns (off + n.length) (by omega)
            have hc := ApplyChanges.change
              { startIndex := off, endIndex := off + o.length, oldText := o,
                newText := n, changeType := .modification,
                region := getRegion off total } hrec
            simpa [joinToks] using hc

/-- C9: diffing a text against itself with an empty applied-suggestion list
is a no-op: `computeDiff X X []` returns changeType `no_change` and an empty
change list. -/
theorem c9_noop_diff (X : List Char) :
    (computeDiff X X []).changeType = ChangeType.no_change ∧
    (computeDiff X X []).changes = [] := by
  simp [computeDiff]

/-- C9 witness at a concrete text. -/
theorem c9_noop_diff_witness :
    (computeDiff "Hello world.".toList "Hello world.".toList []).changeType =
      ChangeType.no_change ∧
    (computeDiff "Hello world.".toList "Hello world.".toList []).changes = [] :=
  c9_noop_diff _

/-- C4 counterexample: `oldContent = "a "` and `newContent = "a"` are equal
after `trim()`, yet `computeDiff` — which compares the untrimmed strings —
classifies the transition as a non-`no_change` with a non-empty change
list. -/
theorem c4_trim_counterexample :
    jsTrim "a ".toList = jsTrim "a".toList ∧
    (computeDiff "a ".toList "a".toList []).changeType ≠ ChangeType.no_change ∧
    (computeDiff "a ".toList "a".toList []).changes ≠ [] := by
  decide

/-- C4 (amended): when `oldContent` and `newContent` are exactly equal (not
merely equal after trimming), `computeDiff` returns changeType `no_change`
with an empty change list, for every applied-suggestion id list. -/
theorem c4_exact_equality_no_change (oldContent newContent : List Char)
    (ids : List String) (h : oldContent = newContent) :
    (computeDiff oldContent newContent ids).changeType = ChangeType.no_change ∧
    (computeDiff oldContent newContent ids).changes = [] := by
  subst h
  simp [computeDiff]

/-- C4 witness: the amended statement applied at a concrete input. -/
theorem c4_exact_equality_no_change_witness :
    (computeDiff "ab".toList "ab".toList ["x"]).changeType =
      ChangeType.no_change ∧
    (computeDiff "ab".toList "ab".toList ["x"]).changes = [] :=
  c4_exact_equality_no_change _ _ ["x"] rfl

/-- C2: for every pair of texts, replacing, in order, each emitted change's
old-span with its new-span in `oldText` (leaving unchanged regions intact)
reconstructs `newText` exactly. -/
theorem c2_diff_reconstruction (oldText newText : List Char) :
    ApplyChanges (findTextChanges oldText newText) oldText newText := by
  have h := applyChanges_findTextChangesAux oldText.length
    ((tokenize oldText).length + (tokenize newText).length)
    (tokenize oldText) (tokenize newText) 0 le_rfl
  rw [joinToks_tokenize, joinToks_tokenize] at h
  simpa [findTextChanges] using h

/-- C2 witness at a concrete pair of texts. -/
theorem c2_diff_reconstruction_witness :
    ApplyChanges (findTextChanges "the cat sat".toList "the big cat sat on a mat".toList)
      "the cat sat".toList "the big cat sat on a mat".toList :=
  c2_diff_reconstruction _ _

/-- A named percentage metric of a review score. -/
structure ScoreMetric where
  label : String
  value : ℚ
  deriving DecidableEq

/-- A named letter sub-grade.  `grade` is `Option String` because the JS
grade field can end up `undefined` (see `improveGrade`). -/
structure SubGrade where
  label : String
  grade : Option String
  deriving DecidableEq

/-- Embedding of `ReviewScore` from `progressive-scoring-system` (the `Date` timestamp is
modelled as a natural number supplied by the caller). -/
structure ReviewScore where
  overallScore : ℚ
  metrics : List ScoreMetric
  subGrades : List SubGrade
  version : String
  timestamp : Nat
  deriving DecidableEq

/-- Embedding of `SuggestionImpact` from `progressive-scoring-system`. -/
structure SuggestionImpact where
  suggestionId : String
  category : String
  region : Region
  affectedMetrics : List String
  affectedSubGrades : List String
  scoreBoost : ℚ
  deriving DecidableEq

/-- The mutable fields of a `ProgressiveScoringSystem` instance.  The
`Map` of suggestion impacts is an association list where `set` prepends and
`get` takes the first (that is, most recent) binding. -/
structure ScoringState where
  baselineScore : Option ReviewScore
  scoreHistory : List ReviewScore
  suggestionImpacts : List (String × SuggestionImpact)
  deriving DecidableEq

/-- A freshly constructed `ProgressiveScoringSystem`. -/
def emptyScoringSystem : ScoringState :=
  { baselineScore := none, scoreHistory := [], suggestionImpacts := [] }

/-- Embedding of `setBaselineScore`. -/
def setBaselineScore (st : ScoringState) (score : ReviewScore) : ScoringState :=
  { st with baselineScore := some score, scoreHistory := [score] }

/-- Embedding of `registerSuggestionImpact`. -/
def registerSuggestionImpact (st : ScoringState) (impact : SuggestionImpact) :
    ScoringState :=
  { st with suggestionImpacts := (impact.suggestionId, impact) :: st.suggestionImpacts }

/-- Embedding of `this.suggestionImpacts.get(id)`. -/
def lookupImpact (st : ScoringState) (id : String) : Option SuggestionImpact :=
  (st.suggestionImpacts.find? (fun p => p.1 == id)).map (·.2)

/-- Embedding of `Math.min` on two (non-NaN) numbers. -/
def jsMin (a b : ℚ) : ℚ := if a ≤ b then a else b

/-- Embedding of `Math.max` on two (non-NaN) numbers. -/
def jsMax (a b : ℚ) : ℚ := if a ≤ b then b else a

/-- Embedding of `Math.abs`. -/
def jsAbs (q : ℚ) : ℚ := if q < 0 then -q else q

theorem jsMin_eq (a b : ℚ) : jsMin a b = min a b := by
  unfold jsMin
  split
  · exact (min_eq_left (by assumption)).symm
  · exact (min_eq_right (le_of_not_le (by assumption))).symm

theorem jsMax_eq (a b : ℚ) : jsMax a b = max a b := by
  unfold jsMax
  split
  · exact (max_eq_right (by assumption)).symm
  · exact (max_eq_left (le_of_not_le (by assumption))).symm

theorem jsAbs_eq (q : ℚ) : jsAbs q = |q| := by
  unfold jsAbs
  split
  · exact (abs_of_neg (by assumption)).symm
  · exact (abs_of_nonneg (le_of_not_lt (by assumption))).symm

/-- The fixed 13-step grade band of `improveGrade`/`degradeGrade`. -/
def gradeBand : List String :=
  ["F", "D-", "D", "D+", "C-", "C", "C+", "B-", "B", "B+", "A-", "A", "A+"]

/-- JS `Array.prototype.indexOf` (returns `-1` when absent; looking up
`undefined` in `gradeBand` also returns `-1`). -/
def jsIndexOf (l : List String) (g : Option String) : ℤ :=
  match g with
  | none => -1
  | some s =>
    match l.findIdx? (fun x => x == s) with
    | none => -1
    | some k => (k : ℤ)

/-- JS array subscript `l[q]` with a number index: a string when `q` is an
integer within bounds, `undefined` (modelled as `none`) when `q` is
negative, fractional, or out of range. -/
def jsArrayGetQ (l : List String) (q : ℚ) : Option String :=
  if q.den = 1 ∧ 0 ≤ q.num ∧ q.num < l.length then l[q.num.toNat]? else none

/-- Embedding of `improveGrade(currentGrade, steps)`. -/
def improveGrade (currentGrade : Option String) (steps : ℚ) : Option String :=
  jsArrayGetQ gradeBand
    (jsMin ((gradeBand.length : ℚ) - 1) ((jsIndexOf gradeBand currentGrade : ℚ) + steps))

/-- Embedding of `degradeGrade(currentGrade, steps)`. -/
def degradeGrade (currentGrade : Option String) (steps : ℚ) : Option String :=
  jsArrayGetQ gradeBand
    (jsMax 0 ((jsIndexOf gradeBand currentGrade : ℚ) - steps))

/-- Helper for `includesL`: does `sub` occur as a contiguous block of `s`? -/
def hasInfix : List Char → List Char → Bool
  | [], sub => sub.isEmpty
  | c :: t, sub => sub.isPrefixOf (c :: t) || hasInfix t sub

/-- Embedding of `s.includes(sub)` on strings, i.e. literal substring membership. -/
def includesL (s sub : List Char) : Bool := hasInfix s sub

/-- Embedding of `text.split(' ').length`: one more than the number of (single-space)
separators. -/
def wordSplitCount (s : List Char) : Nat := s.count ' ' + 1

/-- Embedding of `toLowerCase`, character by character. -/
def jsToLower (s : List Char) : List Char := s.map Char.toLower

def complexWords : List (List Char) :=
  ["demonstrate", "illustrate", "exemplify", "articulate"].map String.toList

def simpleWords : List (List Char) :=
  ["show", "tell", "say", "do"].map String.toList

/-- Embedding of `evaluateChangeQuality(change, fullContent)` — the heuristic per-change
quality delta (the `fullContent` argument is unused in the source too). -/
def evaluateChangeQuality (change : TextChange) (_fullContent : List Char) : ℚ :=
  let lengthDelta : ℚ :=
    if change.newText.length > change.oldText.length ∧
        change.changeType = ChangeKind.addition then
      (if wordSplitCount change.newText > 5 then 1 else 1 / 2)
    else if change.newText.length < change.oldText.length ∧
        change.changeType = ChangeKind.deletion then
      (if includesL change.oldText "very".toList ||
          includesL change.oldText "really".toList then 1 else -(1 / 2))
    else 0
  let vocabDelta : ℚ :=
    if complexWords.any (fun w => includesL (jsToLower change.newText) w) &&
        simpleWords.any (fun w => includesL (jsToLower change.oldText) w) then 1
    else 0
  let grammarDelta₁ : ℚ :=
    if includesL change.oldText "there is".toList &&
        includesL change.newText "there are".toList then 1 / 2 else 0
  let grammarDelta₂ : ℚ :=
    if includesL change.oldText "alot".toList &&
        includesL change.newText "a lot".toList then 1 / 2 else 0
  jsMax (-2) (jsMin 2 (lengthDelta + vocabDelta + grammarDelta₁ + grammarDelta₂))

/-- Embedding of `getAffectedMetricsForChange`. -/
def affectedMetricsForChange (change : TextChange) : List String :=
  (if change.region = Region.beginning then ["Clarity"] else []) ++
  (if change.region = Region.middle then ["Delivery", "Quality"] else []) ++
  (if change.region = Region.ending then ["Quality"] else [])

/-- Embedding of `getAffectedSubGradesForChange`. -/
def affectedSubGradesForChange (change : TextChange) : List String :=
  (if change.region = Region.beginning then ["Hook", "Structure"] else []) ++
  (if change.region = Region.middle then ["Structure", "Uniqueness"] else []) ++
  (if change.region = Region.ending then ["Structure"] else [])

/-- Total boost accumulated by `applySuggestionBoosts` (default `1` per
unregistered id, the registered `scoreBoost` otherwise). -/
def totalBoostOf (st : ScoringState) (appliedSuggestionIds : List String) : ℚ :=
  appliedSuggestionIds.foldl
    (fun acc id =>
      acc + match lookupImpact st id with
        | none => 1
        | some imp => imp.scoreBoost) 0

/-- Embedding of `applySuggestionBoosts(score, appliedSuggestionIds, diff)`.  The
`metricBoosts`/`subGradeBoosts` maps are modelled as total functions
defaulting to `0`, matching the `get(...) || 0` reads. -/
def applySuggestionBoosts (st : ScoringState) (score : ReviewScore)
    (appliedSuggestionIds : List String) : ReviewScore :=
  let metricBoosts : String → ℚ := fun label =>
    appliedSuggestionIds.foldl
      (fun acc id =>
        acc + match lookupImpact st id with
          | none => 0
          | some imp => (imp.affectedMetrics.count label : ℚ) * imp.scoreBoost) 0
  let subGradeBoosts : String → ℚ := fun label =>
    appliedSuggestionIds.foldl
      (fun acc id =>
        acc + match lookupImpact st id with
          | none => 0
          | some imp => (imp.affectedSubGrades.count label : ℚ)) 0
  let cappedBoost := jsMin 3 (totalBoostOf st appliedSuggestionIds)
  { score with
    overallScore := jsMin 100 (score.overallScore + cappedBoost),
    metrics := score.metrics.map fun m =>
      { m with value := jsMin 100 (m.value + metricBoosts m.label) },
    subGrades := score.subGrades.map fun sg =>
      { sg with grade := improveGrade sg.grade (subGradeBoosts sg.label) } }

/-- Sum of the per-change heuristic quality deltas. -/
def qualityDeltaOf (diff : DiffResult) (currentContent : List Char) : ℚ :=
  diff.changes.foldl (fun acc c => acc + evaluateChangeQuality c currentContent) 0

/-- The `metricDeltas` map of `evaluateManualEdits`: the summed per-change
deltas routed to a metric label (one contribution per occurrence of the
label in the change's affected-metric list). -/
def metricDeltasOf (diff : DiffResult) (currentContent : List Char)
    (label : String) : ℚ :=
  diff.changes.foldl
    (fun acc c =>
      acc + ((affectedMetricsForChange c).count label : ℚ) *
        evaluateChangeQuality c currentContent) 0

/-- The `subGradeDeltas` map of `evaluateManualEdits`. -/
def subGradeDeltasOf (diff : DiffResult) (currentContent : List Char)
    (label : String) : ℚ :=
  diff.changes.foldl
    (fun acc c =>
      acc + ((affectedSubGradesForChange c).count label : ℚ) *
        evaluateChangeQuality c currentContent) 0

/-- Embedding of `evaluateManualEdits(score, diff, currentContent)`. -/
def evaluateManualEdits (score : ReviewScore) (diff : DiffResult)
    (currentContent : List Char) : ReviewScore :=
  let cappedDelta := jsMax (-5) (jsMin 3 (qualityDeltaOf diff currentContent))
  { score with
    overallScore := jsMax 0 (jsMin 100 (score.overallScore + cappedDelta)),
    metrics := score.metrics.map fun m =>
      { m with value := jsMax 0 (jsMin 100 (m.value +
        metricDeltasOf diff currentContent m.label)) },
    subGrades := score.subGrades.map fun sg =>
      { sg with
        grade :=
          if subGradeDeltasOf diff currentContent sg.label > 0 then
            improveGrade sg.grade (jsAbs (subGradeDeltasOf diff currentContent sg.label))
          else if subGradeDeltasOf diff currentContent sg.label < 0 then
            degradeGrade sg.grade (jsAbs (subGradeDeltasOf diff currentContent sg.label))
          else sg.grade } }

/-- Embedding of `normalizeScores`. -/
def normalizeScores (score : ReviewScore) : ReviewScore :=
  { score with
    overallScore := jsMax 0 (jsMin 100 score.overallScore),
    metrics := score.metrics.map fun m =>
      { m with value := jsMax 0 (jsMin 100 m.value) } }

/-- Embedding of `getLatestScore` (throws on an empty history). -/
def getLatestScoreE (st : ScoringState) : Except String ReviewScore :=
  match st.scoreHistory.getLast? with
  | none => Except.error "No scores available"
  | some s => Except.ok s

/-- Embedding of `previousScore || this.getLatestScore()` (a present score object is
always truthy). -/
def basePick (st : ScoringState) (previousScore : Option ReviewScore) :
    Except String ReviewScore :=
  match previousScore with
  | some p => Except.ok p
  | none => getLatestScoreE st

/-- Embedding of `calculateProgressiveScore`.  Returns the thrown error or the new score,
together with the updated instance state; a throw happens before the
history push, so the state is returned unchanged in that case. -/
def calculateProgressiveScore (st : ScoringState) (currentContent : List Char)
    (diff : DiffResult) (appliedSuggestionIds : List String)
    (previousScore : Option ReviewScore) (now : Nat) :
    Except String ReviewScore × ScoringState :=
  if st.baselineScore.isNone then
    (Except.error "Baseline score must be set first", st)
  else
    match basePick st previousScore with
    | Except.error e => (Except.error e, st)
    | Except.ok baseScore =>
      let newScore : ReviewScore :=
        { overallScore := baseScore.overallScore,
          metrics := baseScore.metrics,
          subGrades := baseScore.subGrades,
          version := "v" ++ toString (st.scoreHistory.length + 1),
          timestamp := now }
      let newScore₂ :=
        match diff.changeType with
        | ChangeType.suggestion_applied =>
          applySuggestionBoosts st newScore appliedSuggestionIds
        | ChangeType.bulk_suggestion_applied =>
          applySuggestionBoosts st newScore appliedSuggestionIds
        | ChangeType.manual_edit => evaluateManualEdits newScore diff currentContent
        | ChangeType.no_change => newScore
      let normalized := normalizeScores newScore₂
      (Except.ok normalized, { st with scoreHistory := st.scoreHistory ++ [normalized] })

@[simp] theorem normalizeScores_overall (s : ReviewScore) :
    (normalizeScores s).overallScore = max 0 (min 100 s.overallScore) := by
  simp [normalizeScores, jsMax_eq, jsMin_eq]

@[simp] theorem applySuggestionBoosts_overall (st : ScoringState)
    (s : ReviewScore) (ids : List String) :
    (applySuggestionBoosts st s ids).overallScore =
      min 100 (s.overallScore + min 3 (totalBoostOf st ids)) := by
  simp [applySuggestionBoosts, jsMin_eq]

@[simp] theorem evaluateManualEdits_overall (s : ReviewScore)
    (diff : DiffResult) (content : List Char) :
    (evaluateManualEdits s diff content).overallScore =
      max 0 (min 100 (s.overallScore +
        max (-5) (min 3 (qualityDeltaOf diff content)))) := by
  simp [evaluateManualEdits, jsMax_eq, jsMin_eq]

theorem evaluateChangeQuality_bounds (c : TextChange) (content : List Char) :
    -2 ≤ evaluateChangeQuality c content ∧ evaluateChangeQuality c content ≤ 2 := by
  unfold evaluateChangeQuality
  rw [jsMax_eq, jsMin_eq]
  exact ⟨le_max_left _ _, max_le (by norm_num) (min_le_left _ _)⟩

theorem foldl_boost_ge (g : String → ℚ) (hg : ∀ id, 1 ≤ g id) :
    ∀ (l : List String) (acc : ℚ),
      acc + l.length ≤ l.foldl (fun a id => a + g id) acc := by
  intro l
  induction l with
  | nil => intro acc; simp
  | cons id t ih =>
    intro acc
    simp only [List.foldl_cons, List.length_cons]
    have h₁ := ih (acc + g id)
    have h₂ := hg id
    push_cast at h₁ ⊢
    linarith

/-- Body of the `totalBoost` accumulation: the registered boost, or `1` for
an unregistered id. -/
def boostOf (st : ScoringState) (id : String) : ℚ :=
  match lookupImpact st id with
  | none => 1
  | some imp => imp.scoreBoost

theorem totalBoostOf_eq (st : ScoringState) (ids : List String) :
    totalBoostOf st ids = ids.foldl (fun a id => a + boostOf st id) 0 := by
  unfold totalBoostOf boostOf
  rfl

theorem totalBoostOf_ge (st : ScoringState) (ids : List String)
    (himp : ∀ id imp, lookupImpact st id = some imp → 1 ≤ imp.scoreBoost) :
    (ids.length : ℚ) ≤ totalBoostOf st ids := by
  rw [totalBoostOf_eq]
  have hg : ∀ id, 1 ≤ boostOf st id := by
    intro id
    unfold boostOf
    cases hb : lookupImpact st id with
    | none => simp
    | some imp => simpa using himp id imp hb
  simpa using foldl_boost_ge (boostOf st) hg ids 0

theorem calculate_sugg_eq (st : ScoringState) (content : List Char)
    (diff : DiffResult) (ids : List String) (prev : Option ReviewScore)
    (now : Nat) (b p : ReviewScore)
    (hb : st.baselineScore = some b) (hp : basePick st prev = Except.ok p)
    (hct : diff.changeType = ChangeType.suggestion_applied ∨
      diff.changeType = ChangeType.bulk_suggestion_applied) :
    ∃ st₂, calculateProgressiveScore st content diff ids prev now =
      (Except.ok (normalizeScores (applySuggestionBoosts st
        { overallScore := p.overallScore, metrics := p.metrics,
          subGrades := p.subGrades,
          version := "v" ++ toString (st.scoreHistory.length + 1),
          timestamp := now } ids)), st₂) := by
  have hnone : st.baselineScore.isNone = false := by rw [hb]; rfl
  rcases hct with h | h <;>
    exact ⟨_, by simp only [calculateProgressiveScore, hnone,
      Bool.false_eq_true, if_false, hp, h]; rfl⟩

theorem calculate_manual_eq (st : ScoringState) (content : List Char)
    (diff : DiffResult) (ids : List String) (prev : Option ReviewScore)
    (now : Nat) (b p : ReviewScore)
    (hb : st.baselineScore = some b) (hp : basePick st prev = Except.ok p)
    (hct : diff.changeType = ChangeType.manual_edit) :
    ∃ st₂, calculateProgressiveScore st content diff ids prev now =
      (Except.ok (normalizeScores (evaluateManualEdits
        { overallScore := p.overallScore, metrics := p.metrics,
          subGrades := p.subGrades,
          version := "v" ++ toString (st.scoreHistory.length + 1),
          timestamp := now } diff content)), st₂) := by
  have hnone : st.baselineScore.isNone = false := by rw [hb]; rfl
  exact ⟨_, by simp only [calculateProgressiveScore, hnone,
    Bool.false_eq_true, if_false, hp, hct]; rfl⟩

/-- Baseline score of the concrete C1 scenario (overall 70). -/
def c1Baseline : ReviewScore :=
  { overallScore := 70, metrics := [], subGrades := [], version := "v1",
    timestamp := 0 }

/-- A registered impact with `scoreBoost := 2` for the C1 scenario. -/
def c1Impact (id : String) : SuggestionImpact :=
  { suggestionId := id, category := "Word choice", region := Region.middle,
    affectedMetrics := ["Clarity"], affectedSubGrades := [], scoreBoost := 2 }

/-- Scoring state of the concrete C1 scenario: baseline 70, two registered
suggestions each boosting by 2. -/
def c1State : ScoringState :=
  registerSuggestionImpact
    (registerSuggestionImpact (setBaselineScore emptyScoringSystem c1Baseline)
      (c1Impact "s1"))
    (c1Impact "s2")

/-- A `suggestion_applied` diff carrying the two applied ids. -/
def c1Diff : DiffResult :=
  { changes := [], changeType := ChangeType.suggestion_applied,
    appliedSuggestionIds := ["s1", "s2"], affectedRegions := [] }

/-- C1: with a previously set score in [0,100] and registered boosts of at
least 1, a `suggestion_applied`/`bulk_suggestion_applied` review with a
non-empty applied-id list never decreases `overallScore` and increases it by
at most 3 (the summed per-suggestion boosts, default 1 for unregistered
ids, are capped at 3 before being added); in particular, from overallScore
70 with two applied suggestions registered with scoreBoost 2 each, the new
overallScore is exactly 73. -/
theorem c1_suggestion_boost_monotone_capped :
    (∀ (st : ScoringState) (content : List Char) (diff : DiffResult)
        (ids : List String) (prev : Option ReviewScore) (now : Nat)
        (b p : ReviewScore),
      st.baselineScore = some b →
      basePick st prev = Except.ok p →
      0 ≤ p.overallScore → p.overallScore ≤ 100 →
      (∀ id imp, lookupImpact st id = some imp → 1 ≤ imp.scoreBoost) →
      ids ≠ [] →
      (diff.changeType = ChangeType.suggestion_applied ∨
        diff.changeType = ChangeType.bulk_suggestion_applied) →
      ∃ r st₂,
        calculateProgressiveScore st content diff ids prev now =
          (Except.ok r, st₂) ∧
        p.overallScore ≤ r.overallScore ∧
        r.overallScore ≤ p.overallScore + 3) ∧
    (Except.toOption
        (calculateProgressiveScore c1State [] c1Diff ["s1", "s2"] none 1).1).map
      ReviewScore.overallScore = some 73 := by
  constructor
  · intro st content diff ids prev now b p hb hp h0 h100 himp hids hct
    obtain ⟨st₂, hcalc⟩ :=
      calculate_sugg_eq st content diff ids prev now b p hb hp hct
    refine ⟨_, st₂, hcalc, ?_, ?_⟩
    all_goals
      have hT : (1 : ℚ) ≤ totalBoostOf st ids := by
        have hlen : 1 ≤ ids.length := List.length_pos.mpr hids
        calc (1 : ℚ) ≤ (ids.length : ℚ) := by exact_mod_cast hlen
          _ ≤ totalBoostOf st ids := totalBoostOf_ge st ids himp
      have hcap1 : (1 : ℚ) ≤ min 3 (totalBoostOf st ids) :=
        le_min (by norm_num) hT
      have hcap3 : min 3 (totalBoostOf st ids) ≤ 3 := min_le_left _ _
      have hR : (normalizeScores (applySuggestionBoosts st
          { overallScore := p.overallScore, metrics := p.metrics,
            subGrades := p.subGrades,
            version := "v" ++ toString (st.scoreHistory.length + 1),
            timestamp := now } ids)).overallScore =
          max 0 (min 100 (min 100 (p.overallScore +
            min 3 (totalBoostOf st ids)))) := by
        simp only [normalizeScores_overall, applySuggestionBoosts_overall]
      rw [hR]
      have hy : min 100 (min 100 (p.overallScore + min 3 (totalBoostOf st ids)))
          = min 100 (p.overallScore + min 3 (totalBoostOf st ids)) :=
        min_eq_right (min_le_left _ _)
      rw [hy]
    · have hpy : p.overallScore ≤
          min 100 (p.overallScore + min 3 (totalBoostOf st ids)) :=
        le_min h100 (by linarith)
      exact le_trans hpy (le_max_right _ _)
    · refine max_le (by linarith) ?_
      calc min 100 (p.overallScore + min 3 (totalBoostOf st ids))
          ≤ p.overallScore + min 3 (totalBoostOf st ids) := min_le_right _ _
        _ ≤ p.overallScore + 3 := by linarith
  · have hs : ("s2" == "s1") = false := by decide
    norm_num [c1State, c1Baseline, c1Impact, c1Diff, calculateProgressiveScore,
      basePick, getLatestScoreE, setBaselineScore, registerSuggestionImpact,
      emptyScoringSystem, normalizeScores, applySuggestionBoosts, totalBoostOf,
      lookupImpact, jsMin, jsMax, List.find?, hs, Except.toOption]

theorem lookupImpact_mem {st : ScoringState} {id : String}
    {imp : SuggestionImpact} (h : lookupImpact st id = some imp) :
    ∃ k, (k, imp) ∈ st.suggestionImpacts := by
  unfold lookupImpact at h
  cases hf : st.suggestionImpacts.find? (fun p => p.1 == id) with
  | none => rw [hf] at h; simp at h
  | some q =>
    rw [hf] at h
    simp only [Option.map_some'] at h
    refine ⟨q.1, ?_⟩
    have hq := List.mem_of_find?_eq_some hf
    have h₂ : q.2 = imp := Option.some.inj h
    rw [← h₂]
    simpa using hq

/-- C1 witness: the general bound applied to the concrete scenario. -/
theorem c1_suggestion_boost_monotone_capped_witness :
    ∃ r st₂,
      calculateProgressiveScore c1State [] c1Diff ["s1", "s2"] none 1 =
        (Except.ok r, st₂) ∧
      c1Baseline.overallScore ≤ r.overallScore ∧
      r.overallScore ≤ c1Baseline.overallScore + 3 := by
  refine c1_suggestion_boost_monotone_capped.1 c1State [] c1Diff ["s1", "s2"]
    none 1 c1Baseline c1Baseline rfl rfl (by norm_num [c1Baseline])
    (by norm_num [c1Baseline]) ?_ (by simp) (Or.inl rfl)
  intro id imp h
  obtain ⟨k, hk⟩ := lookupImpact_mem h
  simp only [c1State, registerSuggestionImpact, setBaselineScore,
    emptyScoringSystem, List.mem_cons, List.not_mem_nil, or_false,
    Prod.mk.injEq] at hk
  rcases hk with ⟨-, h2⟩ | ⟨-, h2⟩ <;> rw [h2] <;> norm_num [c1Impact]

/-- C7: on a `manual_edit` diff, every per-change heuristic delta lies in
[-2, 2]; the overall score becomes the previous score plus the summed
deltas clamped to [-5, +3], the result clamped to [0, 100]; and when the
previous score lies in [0, 100] the overall score consequently moves by at
least -5 and at most +3 in that single call. -/
theorem c7_manual_edit_quality_clamp :
    ∀ (st : ScoringState) (content : List Char) (diff : DiffResult)
      (ids : List String) (prev : Option ReviewScore) (now : Nat)
      (b p : ReviewScore),
      st.baselineScore = some b →
      basePick st prev = Except.ok p →
      diff.changeType = ChangeType.manual_edit →
      ∃ r st₂,
        calculateProgressiveScore st content diff ids prev now =
          (Except.ok r, st₂) ∧
        r.overallScore = max 0 (min 100 (p.overallScore +
          max (-5) (min 3 (qualityDeltaOf diff content)))) ∧
        (∀ c ∈ diff.changes, -2 ≤ evaluateChangeQuality c content ∧
          evaluateChangeQuality c content ≤ 2) ∧
        (0 ≤ p.overallScore → p.overallScore ≤ 100 →
          p.overallScore - 5 ≤ r.overallScore ∧
          r.overallScore ≤ p.overallScore + 3) := by
  intro st content diff ids prev now b p hb hp hct
  obtain ⟨st₂, hcalc⟩ :=
    calculate_manual_eq st content diff ids prev now b p hb hp hct
  have hover : (normalizeScores (evaluateManualEdits
      { overallScore := p.overallScore, metrics := p.metrics,
        subGrades := p.subGrades,
        version := "v" ++ toString (st.scoreHistory.length + 1),
        timestamp := now } diff content)).overallScore =
      max 0 (min 100 (p.overallScore +
        max (-5) (min 3 (qualityDeltaOf diff content)))) := by
    simp only [normalizeScores_overall, evaluateManualEdits_overall]
    have hy : min 100 (max 0 (min 100 (p.overallScore +
        max (-5) (min 3 (qualityDeltaOf diff content))))) =
        max 0 (min 100 (p.overallScore +
          max (-5) (min 3 (qualityDeltaOf diff content)))) :=
      min_eq_right (max_le (by norm_num) (min_le_left _ _))
    rw [hy, ← max_assoc, max_self]
  refine ⟨_, st₂, hcalc, hover,
    fun c _ => evaluateChangeQuality_bounds c content, ?_⟩
  intro h0 h100
  rw [hover]
  have hc5 : (-5 : ℚ) ≤ max (-5) (min 3 (qualityDeltaOf diff content)) :=
    le_max_left _ _
  have hc3 : max (-5) (min 3 (qualityDeltaOf diff content)) ≤ 3 :=
    max_le (by norm_num) (min_le_left _ _)
  constructor
  · have h₁ : p.overallScore - 5 ≤
        min 100 (p.overallScore + max (-5) (min 3 (qualityDeltaOf diff content))) :=
      le_min (by linarith) (by linarith)
    exact le_trans h₁ (le_max_right _ _)
  · refine max_le (by linarith) ?_
    calc min 100 (p.overallScore + max (-5) (min 3 (qualityDeltaOf diff content)))
        ≤ p.overallScore + max (-5) (min 3 (qualityDeltaOf diff content)) :=
          min_le_right _ _
      _ ≤ p.overallScore + 3 := by linarith

/-- C7 witness: a concrete `manual_edit` review through
`calculateProgressiveScore`. -/
theorem c7_manual_edit_quality_clamp_witness :
    ∃ r st₂,
      calculateProgressiveScore (setBaselineScore emptyScoringSystem c1Baseline)
        "a b".toList (computeDiff "a".toList "a b".toList []) [] none 1 =
        (Except.ok r, st₂) ∧
      r.overallScore = max 0 (min 100 (c1Baseline.overallScore +
        max (-5) (min 3 (qualityDeltaOf (computeDiff "a".toList "a b".toList [])
          "a b".toList)))) ∧
      (∀ c ∈ (computeDiff "a".toList "a b".toList []).changes,
        -2 ≤ evaluateChangeQuality c "a b".toList ∧
        evaluateChangeQuality c "a b".toList ≤ 2) ∧
      (0 ≤ c1Baseline.overallScore → c1Baseline.overallScore ≤ 100 →
        c1Baseline.overallScore - 5 ≤ r.overallScore ∧
        r.overallScore ≤ c1Baseline.overallScore + 3) :=
  c7_manual_edit_quality_clamp _ _ _ [] none 1 c1Baseline c1Baseline rfl rfl
    (by decide)

/-- A scoring state on which a baseline has been set: the baseline is
present and the history non-empty. -/
def scoringReady (st : ScoringState) : Prop :=
  st.baselineScore.isSome ∧ st.scoreHistory ≠ []

theorem calculate_ok (st : ScoringState) (content : List Char)
    (diff : DiffResult) (ids : List String) (prev : Option ReviewScore)
    (now : Nat) (b p : ReviewScore)
    (hb : st.baselineScore = some b) (hp : basePick st prev = Except.ok p) :
    ∃ r, calculateProgressiveScore st content diff ids prev now =
      (Except.ok r, { st with scoreHistory := st.scoreHistory ++ [r] }) := by
  have hnone : st.baselineScore.isNone = false := by rw [hb]; rfl
  cases hct : diff.changeType <;>
    exact ⟨_, by simp only [calculateProgressiveScore, hnone,
      Bool.false_eq_true, if_false, hp, hct]; rfl⟩

/-- C8: `calculateProgressiveScore` fails (leaving the state, hence the
history, untouched) when no baseline is set, `getLatestScore` fails on an
empty history, and once `setBaselineScore` has run, both operations succeed
on every later call (`scoringReady` is established by `setBaselineScore` and
preserved by every operation). -/
theorem c8_baseline_requirements :
    (∀ (st : ScoringState) (content : List Char) (diff : DiffResult)
        (ids : List String) (prev : Option ReviewScore) (now : Nat),
      st.baselineScore = none →
      calculateProgressiveScore st content diff ids prev now =
        (Except.error "Baseline score must be set first", st)) ∧
    (∀ st : ScoringState, st.scoreHistory = [] →
      getLatestScoreE st = Except.error "No scores available") ∧
    (∀ (st : ScoringState) (score : ReviewScore),
      scoringReady (setBaselineScore st score)) ∧
    (∀ (st : ScoringState) (impact : SuggestionImpact),
      scoringReady st → scoringReady (registerSuggestionImpact st impact)) ∧
    (∀ (st : ScoringState) (content : List Char) (diff : DiffResult)
        (ids : List String) (prev : Option ReviewScore) (now : Nat),
      scoringReady st →
      ∃ r st₂, calculateProgressiveScore st content diff ids prev now =
        (Except.ok r, st₂) ∧ scoringReady st₂) ∧
    (∀ st : ScoringState, scoringReady st →
      ∃ s, getLatestScoreE st = Except.ok s) := by
  refine ⟨?_, ?_, ?_, ?_, ?_, ?_⟩
  · intro st content diff ids prev now h
    simp [calculateProgressiveScore, h]
  · intro st h
    simp [getLatestScoreE, h]
  · intro st score
    simp [scoringReady, setBaselineScore]
  · intro st impact h
    simpa [scoringReady, registerSuggestionImpact] using h
  · intro st content diff ids prev now h
    obtain ⟨h₁, h₂⟩ := h
    obtain ⟨b, hb⟩ := Option.isSome_iff_exists.mp h₁
    have hp : ∃ p, basePick st prev = Except.ok p := by
      cases prev with
      | some p => exact ⟨p, rfl⟩
      | none =>
        cases hl : st.scoreHistory.getLast? with
        | none => exact absurd (List.getLast?_eq_none_iff.mp hl) h₂
        | some s => exact ⟨s, by simp [basePick, getLatestScoreE, hl]⟩
    obtain ⟨p, hp⟩ := hp
    obtain ⟨r, hr⟩ := calculate_ok st content diff ids prev now b p hb hp
    refine ⟨r, _, hr, ?_, ?_⟩
    · simp [hb]
    · simp
  · intro st h
    obtain ⟨h₁, h₂⟩ := h
    cases hl : st.scoreHistory.getLast? with
    | none => exact absurd (List.getLast?_eq_none_iff.mp hl) h₂
    | some s => exact ⟨s, by simp [getLatestScoreE, hl]⟩

/-- C8 witness: a fresh system rejects `calculateProgressiveScore`, leaving
its state unchanged. -/
theorem c8_baseline_requirements_witness :
    calculateProgressiveScore emptyScoringSystem []
      { changes := [], changeType := ChangeType.no_change,
        appliedSuggestionIds := [], affectedRegions := [] } [] none 0 =
      (Except.error "Baseline score must be set first", emptyScoringSystem) :=
  c8_baseline_requirements.1 emptyScoringSystem []
    { changes := [], changeType := ChangeType.no_change,
      appliedSuggestionIds := [], affectedRegions := [] } [] none 0 rfl

@[simp] theorem normalizeScores_subGrades (s : ReviewScore) :
    (normalizeScores s).subGrades = s.subGrades := rfl

@[simp] theorem evaluateManualEdits_subGrades (s : ReviewScore)
    (diff : DiffResult) (content : List Char) :
    (evaluateManualEdits s diff content).subGrades =
      s.subGrades.map fun sg =>
        { sg with
          grade :=
            if subGradeDeltasOf diff content sg.label > 0 then
              improveGrade sg.grade (jsAbs (subGradeDeltasOf diff content sg.label))
            else if subGradeDeltasOf diff content sg.label < 0 then
              degradeGrade sg.grade (jsAbs (subGradeDeltasOf diff content sg.label))
            else sg.grade } := rfl

/-- Baseline score of the C3 failing run: overall 70, one metric at 70, one
sub-grade "C" — all inside the documented ranges. -/
def c3Baseline : ReviewScore :=
  { overallScore := 70, metrics := [{ label := "Quality", value := 70 }],
    subGrades := [{ label := "Structure", grade := some "C" }],
    version := "v1", timestamp := 0 }

/-- The single change the diff of `"a"` → `"a b"` produces: a two-character
addition at the end. -/
def c3Chg : TextChange :=
  { startIndex := 1, endIndex := 1, oldText := [], newText := [' ', 'b'],
    changeType := ChangeKind.addition, region := Region.ending }

/-- The classified diff of the C3 failing run. -/
def c3Diff : DiffResult := computeDiff "a".toList "a b".toList []

theorem c3_diff_eval :
    c3Diff =
      { changes := [c3Chg], changeType := ChangeType.manual_edit,
        appliedSuggestionIds := [], affectedRegions := [Region.ending] } := by
  decide

theorem c3_quality_half :
    evaluateChangeQuality c3Chg "a b".toList = 1 / 2 := by
  have h₁ : wordSplitCount c3Chg.newText = 2 := by decide
  have h₂ : (complexWords.any fun w => includesL (jsToLower c3Chg.newText) w)
      = false := by decide
  have h₃ : includesL c3Chg.oldText "there is".toList = false := by decide
  have h₄ : includesL c3Chg.oldText "alot".toList = false := by decide
  have h₅ : c3Chg.newText.length > c3Chg.oldText.length := by decide
  unfold evaluateChangeQuality
  rw [h₁, h₂, h₃, h₄]
  simp only [h₅, c3Chg, Bool.false_and, Bool.and_self, if_true, if_false]
  norm_num [jsMax, jsMin]

theorem c3_subGradeDelta_half :
    subGradeDeltasOf c3Diff "a b".toList "Structure" = 1 / 2 := by
  have hcnt : (affectedSubGradesForChange c3Chg).count "Structure" = 1 := by
    decide
  rw [c3_diff_eval]
  unfold subGradeDeltasOf
  simp only [List.foldl_cons, List.foldl_nil, hcnt, c3_quality_half]
  norm_num

theorem c3_improveGrade_half_undefined :
    improveGrade (some "C") (jsAbs (1 / 2)) = none := by
  have hio : jsIndexOf gradeBand (some "C") = 5 := by decide
  have habs : jsAbs (1 / 2 : ℚ) = 1 / 2 := by norm_num [jsAbs]
  rw [habs]
  unfold improveGrade jsMin jsArrayGetQ
  rw [hio]
  norm_num [gradeBand]

/-- C3 (code bug): start from a baseline whose overall score and metric
values lie in [0,100] and whose sub-grade "C" lies in the 13-step band; one
`manual_edit` review whose diff — computed by the code for the transition
`"a"` → `"a b"` — contains a single short addition routes a fractional
quality delta (+0.5) into `improveGrade`, whose fractional array index 5.5
makes the JS `grades[5.5]` read return `undefined`: the stored sub-grade
leaves the 13-step band (it is not even a string). -/
theorem c3_grade_band_violation :
    (∀ sg ∈ c3Baseline.subGrades, sg.grade ∈ gradeBand.map some) ∧
    (∀ m ∈ c3Baseline.metrics, 0 ≤ m.value ∧ m.value ≤ 100) ∧
    0 ≤ c3Baseline.overallScore ∧ c3Baseline.overallScore ≤ 100 ∧
    ∃ r st₂,
      calculateProgressiveScore (setBaselineScore emptyScoringSystem c3Baseline)
        "a b".toList c3Diff [] none 1 = (Except.ok r, st₂) ∧
      r.subGrades.map SubGrade.grade = [none] := by
  refine ⟨by decide, by decide, by decide, by decide, ?_⟩
  obtain ⟨st₂, hcalc⟩ := calculate_manual_eq
    (setBaselineScore emptyScoringSystem c3Baseline) "a b".toList c3Diff []
    none 1 c3Baseline c3Baseline rfl rfl (by rw [c3_diff_eval])
  refine ⟨_, st₂, hcalc, ?_⟩
  simp only [normalizeScores_subGrades, evaluateManualEdits_subGrades]
  show (c3Baseline.subGrades.map _).map _ = _
  simp only [c3Baseline, List.map_cons, List.map_nil]
  rw [if_pos (by rw [c3_subGradeDelta_half]; norm_num)]
  rw [c3_subGradeDelta_half, c3_improveGrade_half_undefined]

/-- Generation strategy of `SmartSuggestionGenerator`. -/
inductive GenerationType where
  | full
  | targeted
  | score_update_only
  deriving DecidableEq

/-- Suggestion priority. -/
inductive Priority where
  | high
  | medium
  | low
  deriving DecidableEq

/-- Embedding of `Suggestion` from `smart-suggestion-generator`. -/
structure GenSuggestion where
  uuid : String
  category : String
  title : String
  description : String
  startIndex : Nat
  endIndex : Nat
  replacement : List Char
  originalText : List Char
  region : Region
  priority : Priority
  impact : Option SuggestionImpact
  deriving DecidableEq

/-- The mutable applied/skipped id sets of a `SmartSuggestionGenerator`
instance (a JS `Set` keeps insertion order and ignores duplicates). -/
structure GenState where
  applied : List String
  skipped : List String
  deriving DecidableEq

/-- Add each id to an insertion-ordered set. -/
def addIds (l : List String) (ids : List String) : List String :=
  ids.foldl (fun acc id => if acc.contains id then acc else acc ++ [id]) l

/-- Embedding of `SuggestionGenerationRequest`. -/
structure GenRequest where
  content : List Char
  prompt : Option String
  diff : Option DiffResult
  previousSuggestions : Option (List GenSuggestion)
  appliedSuggestionIds : Option (List String)
  isFirstReview : Bool

/-- Embedding of `SuggestionGenerationResult`. -/
structure GenResult where
  suggestions : List GenSuggestion
  focusedRegions : List Region
  suggestionCount : Nat
  generationType : GenerationType
  deriving DecidableEq

def regionOrder : Region → Nat
  | Region.beginning => 0
  | Region.middle => 1
  | Region.ending => 2

def priorityOrder : Priority → Nat
  | Priority.high => 0
  | Priority.medium => 1
  | Priority.low => 2

/-- The comparator of `prioritizeAndOrderSuggestions` (region, then start
index, then priority). -/
def suggestionCmp (a b : GenSuggestion) : Int :=
  if regionOrder a.region ≠ regionOrder b.region then
    (regionOrder a.region : Int) - regionOrder b.region
  else if a.startIndex ≠ b.startIndex then
    (a.startIndex : Int) - b.startIndex
  else
    (priorityOrder a.priority : Int) - priorityOrder b.priority

/-- Embedding of `prioritizeAndOrderSuggestions` (a JS `sort` is stable). -/
def prioritizeAndOrderSuggestions (suggestions : List GenSuggestion) :
    List GenSuggestion :=
  suggestions.mergeSort fun a b => suggestionCmp a b ≤ 0

/-- Embedding of `filterOutAppliedSuggestions` (keeps the suggestions whose uuid is not
in the applied set). -/
def filterOutAppliedSuggestions (applied : List String)
    (suggestions : List GenSuggestion) : List GenSuggestion :=
  suggestions.filter fun s => !(applied.contains s.uuid)

/-- Embedding of `generateSuggestions`.  The AI calls (`callAIForSuggestions`,
`callAIForTargetedSuggestions`) are external I/O; their responses are the
oracle parameters `aiFull`/`aiTargeted`, and the third component of the
result counts how many such calls the executed branch makes.  The requested
suggestion counts (`20 + ⌊30·random⌋` and `min(10, changes·3)`) only shape
the prompt of those external calls. -/
def generateSuggestions (st : GenState) (req : GenRequest)
    (aiFull aiTargeted : List GenSuggestion) :
    GenResult × GenState × Nat :=
  let st₁ : GenState :=
    { st with applied := addIds st.applied (req.appliedSuggestionIds.getD []) }
  if req.isFirstReview then
    ({ suggestions := prioritizeAndOrderSuggestions aiFull,
       focusedRegions := [Region.beginning, Region.middle, Region.ending],
       suggestionCount := aiFull.length, generationType := GenerationType.full },
     st₁, 1)
  else
    match req.diff with
    | none =>
      ({ suggestions := [], focusedRegions := [], suggestionCount := 0,
         generationType := GenerationType.score_update_only }, st₁, 0)
    | some diff =>
      if diff.changeType = ChangeType.no_change then
        ({ suggestions := [], focusedRegions := [], suggestionCount := 0,
           generationType := GenerationType.score_update_only }, st₁, 0)
      else if diff.changeType = ChangeType.suggestion_applied ∨
          diff.changeType = ChangeType.bulk_suggestion_applied then
        ({ suggestions := filterOutAppliedSuggestions st₁.applied
             (req.previousSuggestions.getD []),
           focusedRegions := [], suggestionCount := 0,
           generationType := GenerationType.score_update_only }, st₁, 0)
      else
        if diff.changes.length = 0 then
          ({ suggestions := [], focusedRegions := [], suggestionCount := 0,
             generationType := GenerationType.targeted }, st₁, 0)
        else
          ({ suggestions := prioritizeAndOrderSuggestions aiTargeted,
             focusedRegions := diff.affectedRegions,
             suggestionCount := aiTargeted.length,
             generationType := GenerationType.targeted }, st₁, 1)

/-- C5: on a non-first review whose diff is `suggestion_applied` or
`bulk_suggestion_applied`, `generateSuggestions` makes no AI call and
returns `score_update_only` with the previous suggestion list filtered to
the uuids not in the applied-id set (the set after recording the request's
applied ids), a filtering that preserves the original order. -/
theorem c5_suggestion_applied_score_update_only :
    ∀ (st : GenState) (req : GenRequest)
      (aiFull aiTargeted : List GenSuggestion) (d : DiffResult),
      req.isFirstReview = false →
      req.diff = some d →
      (d.changeType = ChangeType.suggestion_applied ∨
        d.changeType = ChangeType.bulk_suggestion_applied) →
      (generateSuggestions st req aiFull aiTargeted).2.2 = 0 ∧
      (generateSuggestions st req aiFull aiTargeted).1.generationType =
        GenerationType.score_update_only ∧
      (generateSuggestions st req aiFull aiTargeted).1.suggestions =
        (req.previousSuggestions.getD []).filter
          (fun s => !((addIds st.applied
            (req.appliedSuggestionIds.getD [])).contains s.uuid)) ∧
      List.Sublist ((generateSuggestions st req aiFull aiTargeted).1.suggestions)
        (req.previousSuggestions.getD []) := by
  intro st req aiFull aiTargeted d hf hd hct
  have hnc : ¬ d.changeType = ChangeType.no_change := by
    rcases hct with h | h <;> rw [h] <;> intro hx <;> cases hx
  have heq : generateSuggestions st req aiFull aiTargeted =
      ({ suggestions := (req.previousSuggestions.getD []).filter
           (fun s => !((addIds st.applied
             (req.appliedSuggestionIds.getD [])).contains s.uuid)),
         focusedRegions := [], suggestionCount := 0,
         generationType := GenerationType.score_update_only },
       { st with
           applied := addIds st.applied (req.appliedSuggestionIds.getD []) },
       0) := by
    simp only [generateSuggestions, hf, hd, Bool.false_eq_true, if_false,
      if_neg hnc, if_pos hct, filterOutAppliedSuggestions]
  rw [heq]
  exact ⟨rfl, rfl, rfl, List.filter_sublist _⟩

/-- The previous suggestion (uuid "b") of the concrete C5/C10 scenarios. -/
def prevSuggB : GenSuggestion :=
  { uuid := "b", category := "Grammar", title := "", description := "",
    startIndex := 0, endIndex := 0, replacement := [], originalText := [],
    region := Region.beginning, priority := Priority.high, impact := none }

/-- A `suggestion_applied` diff with applied id "a". -/
def diffAppliedA : DiffResult :=
  { changes := [], changeType := ChangeType.suggestion_applied,
    appliedSuggestionIds := ["a"], affectedRegions := [] }

/-- The concrete C5 request: not a first review, previous list `[uuid "b"]`,
applied id "a". -/
def c5Req : GenRequest :=
  { content := [], prompt := none, diff := some diffAppliedA,
    previousSuggestions := some [prevSuggB],
    appliedSuggestionIds := some ["a"], isFirstReview := false }

/-- C5 witness: the concrete request keeps the non-applied suggestion and
makes no AI call. -/
theorem c5_suggestion_applied_score_update_only_witness :
    (generateSuggestions { applied := [], skipped := [] } c5Req [] []).2.2 = 0 ∧
    (generateSuggestions { applied := [], skipped := [] } c5Req [] []).1.generationType =
      GenerationType.score_update_only ∧
    (generateSuggestions { applied := [], skipped := [] } c5Req [] []).1.suggestions =
      [prevSuggB] := by
  obtain ⟨h₁, h₂, h₃, -⟩ := c5_suggestion_applied_score_update_only
    { applied := [], skipped := [] } c5Req [] [] diffAppliedA rfl rfl
    (Or.inl rfl)
  exact ⟨h₁, h₂, by rw [h₃]; decide⟩

/-- C10 (implicit): in the suggestion-applied mode the result's
`suggestionCount` is hard-coded to 0 even though the returned list — the
previous suggestions minus the applied ids — can be non-empty (concretely:
previous list `[uuid "b"]`, applied id `"a"` returns one suggestion but
`suggestionCount = 0`), so `suggestionCount` differs from the length of the
returned suggestions list. -/
theorem c10_suggestion_count_mismatch :
    (∀ (st : GenState) (req : GenRequest)
        (aiFull aiTargeted : List GenSuggestion) (d : DiffResult),
      req.isFirstReview = false →
      req.diff = some d →
      (d.changeType = ChangeType.suggestion_applied ∨
        d.changeType = ChangeType.bulk_suggestion_applied) →
      (generateSuggestions st req aiFull aiTargeted).1.suggestionCount = 0) ∧
    ((generateSuggestions { applied := [], skipped := [] } c5Req
        [] []).1.suggestions.length = 1 ∧
      (generateSuggestions { applied := [], skipped := [] } c5Req
        [] []).1.suggestionCount = 0) := by
  constructor
  · intro st req aiFull aiTargeted d hf hd hct
    have hnc : ¬ d.changeType = ChangeType.no_change := by
      rcases hct with h | h <;> rw [h] <;> intro hx <;> cases hx
    simp only [generateSuggestions, hf, hd, Bool.false_eq_true, if_false,
      if_neg hnc, if_pos hct]
  · exact ⟨by decide, by decide⟩

/-- C10 witness: the count-zero fact applied at the concrete request. -/
theorem c10_suggestion_count_mismatch_witness :
    (generateSuggestions { applied := ["z"], skipped := [] } c5Req
      [] []).1.suggestionCount = 0 :=
  c10_suggestion_count_mismatch.1 { applied := ["z"], skipped := [] } c5Req
    [] [] diffAppliedA rfl rfl (Or.inl rfl)

/-- Embedding of `EssaySuggestion` from `services/essay-assist/types`, restricted to the
fields the filtering utilities read.  `stype`, `fromText` and `toText`
model the source's `type`, `from` and `to` (`from` is a Lean keyword). -/
structure EssaySuggestionF where
  uuid : String
  stype : List Char
  fromText : List Char
  toText : List Char
  deriving DecidableEq

/-- Embedding of `SuggestionFilteringState` (the JS `Set`s of content hashes are
insertion-ordered string sets). -/
structure FilteringState where
  appliedSuggestions : List String
  skippedSuggestions : List String
  appliedSuggestionContent : List (List Char)
  skippedSuggestionContent : List (List Char)
  deriving DecidableEq

/-- Embedding of `createSuggestionHash`: `` `${from}|${to}|${type}` ``. -/
def createSuggestionHash (s : EssaySuggestionF) : List Char :=
  s.fromText ++ '|' :: s.toText ++ '|' :: s.stype

/-- Embedding of `shouldFilterSuggestion`. -/
def shouldFilterSuggestion (s : EssaySuggestionF) (content : List Char)
    (fs : FilteringState) : Bool :=
  if fs.appliedSuggestions.contains s.uuid ||
      fs.skippedSuggestions.contains s.uuid ||
      fs.appliedSuggestionContent.contains (createSuggestionHash s) ||
      fs.skippedSuggestionContent.contains (createSuggestionHash s) then
    true
  else if !s.fromText.isEmpty && !includesL content s.fromText then
    true
  else
    false

/-- Embedding of `filterSuggestions`.  The source's `!suggestions || !content` guard
returns `[]` also when `content` is the empty string (the only falsy value
of the modelled inputs). -/
def filterSuggestions (suggestions : List EssaySuggestionF)
    (content : List Char) (fs : FilteringState) : List EssaySuggestionF :=
  if content.isEmpty then []
  else suggestions.filter fun s => !shouldFilterSuggestion s content fs

theorem shouldFilter_false_facts {s : EssaySuggestionF} {content : List Char}
    {fs : FilteringState} (h : shouldFilterSuggestion s content fs = false) :
    fs.appliedSuggestions.contains s.uuid = false ∧
    fs.skippedSuggestions.contains s.uuid = false ∧
    (s.fromText ≠ [] → includesL content s.fromText = true) := by
  have hx1 : fs.appliedSuggestions.contains s.uuid = false := by
    cases hx : fs.appliedSuggestions.contains s.uuid
    · rfl
    · exfalso
      unfold shouldFilterSuggestion at h
      rw [if_pos (by rw [hx]; rfl)] at h
      exact Bool.noConfusion h
  have hx2 : fs.skippedSuggestions.contains s.uuid = false := by
    cases hx : fs.skippedSuggestions.contains s.uuid
    · rfl
    · exfalso
      unfold shouldFilterSuggestion at h
      rw [if_pos (by rw [hx1, hx]; rfl)] at h
      exact Bool.noConfusion h
  refine ⟨hx1, hx2, ?_⟩
  intro hne
  have hemp : s.fromText.isEmpty = false := by
    cases hx : s.fromText.isEmpty
    · rfl
    · exact absurd (List.isEmpty_iff.mp hx) hne
  cases hy : includesL content s.fromText
  · exfalso
    unfold shouldFilterSuggestion at h
    by_cases hA : (fs.appliedSuggestions.contains s.uuid ||
        fs.skippedSuggestions.contains s.uuid ||
        fs.appliedSuggestionContent.contains (createSuggestionHash s) ||
        fs.skippedSuggestionContent.contains (createSuggestionHash s)) = true
    · rw [if_pos hA] at h
      exact Bool.noConfusion h
    · rw [if_neg hA] at h
      rw [if_pos (by rw [hemp, hy]; rfl)] at h
      exact Bool.noConfusion h
  · rfl

/-- C6: the output of `filterSuggestions` is a subsequence of its input
(order preserved), and it never contains a suggestion whose uuid is in the
applied or skipped set, nor one whose non-empty `from` text is not a
literal substring of the current content. -/
theorem c6_filter_suggestions_sound :
    ∀ (suggestions : List EssaySuggestionF) (content : List Char)
      (fs : FilteringState),
      List.Sublist (filterSuggestions suggestions content fs) suggestions ∧
      ∀ s ∈ filterSuggestions suggestions content fs,
        fs.appliedSuggestions.contains s.uuid = false ∧
        fs.skippedSuggestions.contains s.uuid = false ∧
        (s.fromText ≠ [] → includesL content s.fromText = true) := by
  intro suggestions content fs
  unfold filterSuggestions
  by_cases hc : content.isEmpty
  · rw [if_pos hc]
    exact ⟨List.nil_sublist _, by intro s hs; cases hs⟩
  · rw [if_neg hc]
    refine ⟨List.filter_sublist _, ?_⟩
    intro s hs
    have hsf : shouldFilterSuggestion s content fs = false := by
      have := (List.mem_filter.mp hs).2
      simpa using this
    exact shouldFilter_false_facts hsf

/-- C6 witness: the soundness facts at a concrete input (one applied, one
stale, one surviving suggestion). -/
theorem c6_filter_suggestions_sound_witness :
    List.Sublist (filterSuggestions
      [{ uuid := "a", stype := [], fromText := [], toText := [] },
       { uuid := "b", stype := [], fromText := ['z'], toText := [] },
       { uuid := "c", stype := [], fromText := ['h'], toText := [] }]
      ['h', 'i']
      { appliedSuggestions := ["a"], skippedSuggestions := [],
        appliedSuggestionContent := [], skippedSuggestionContent := [] })
      [{ uuid := "a", stype := [], fromText := [], toText := [] },
       { uuid := "b", stype := [], fromText := ['z'], toText := [] },
       { uuid := "c", stype := [], fromText := ['h'], toText := [] }] ∧
    ∀ s ∈ filterSuggestions
      [{ uuid := "a", stype := [], fromText := [], toText := [] },
       { uuid := "b", stype := [], fromText := ['z'], toText := [] },
       { uuid := "c", stype := [], fromText := ['h'], toText := [] }]
      ['h', 'i']
      { appliedSuggestions := ["a"], skippedSuggestions := [],
        appliedSuggestionContent := [], skippedSuggestionContent := [] },
      ({ appliedSuggestions := ["a"], skippedSuggestions := [],
         appliedSuggestionContent := [],
         skippedSuggestionContent := [] } : FilteringState).appliedSuggestions.contains
        s.uuid = false ∧
      ({ appliedSuggestions := ["a"], skippedSuggestions := [],
         appliedSuggestionContent := [],
         skippedSuggestionContent := [] } : FilteringState).skippedSuggestions.contains
        s.uuid = false ∧
      (s.fromText ≠ [] → includesL ['h', 'i'] s.fromText = true) :=
  c6_filter_suggestions_sound
    [{ uuid := "a", stype := [], fromText := [], toText := [] },
     { uuid := "b", stype := [], fromText := ['z'], toText := [] },
     { uuid := "c", stype := [], fromText := ['h'], toText := [] }]
    ['h', 'i']
    { appliedSuggestions := ["a"], skippedSuggestions := [],
      appliedSuggestionContent := [], skippedSuggestionContent := [] }

end EssayAssist
